import Mathlib

/-!
Shallow embedding of `character_quiz_app.py` (Streamlit Chinese character
quiz): answer normalization and matching, deck assembly from a
chapter-keyed card store, and the quiz session state machine
(submit / timed auto-advance / stop / finish report).

Python strings are lists of characters; Python `time.time()` values are
rationals; Python code that can raise returns `Option`.
-/

namespace CharQuiz

/-- Python strings, as lists of characters. -/
abbrev Str := List Char

/-- Python `str.lower`, modelled as character-wise lower-casing
(exact on the ASCII range the quiz answers use). -/
def pyLower (s : Str) : Str := s.map Char.toLower

/-- Python `s.replace(c, "")` for a one-character pattern `c`: every
occurrence of `c` is removed, all other characters are kept in order. -/
def removeAll (c : Char) : Str → Str
  | [] => []
  | x :: xs => if x = c then removeAll c xs else x :: removeAll c xs

/-- `normalize` (source line 66-67): `ans.lower().replace(" ", "")` —
lower-case, then delete every space character. Total by construction. -/
def normalize (ans : Str) : Str := removeAll ' ' (pyLower ans)

/-- One flashcard: the displayed glyph and its accepted meanings
(record `{hanzi, english}` of the card store). -/
structure Card where
  hanzi : Str
  english : List Str
deriving DecidableEq

/-- The answer matcher inlined in `evaluate_answer` (source lines 91-93):
`normalize(answer) in [normalize(m) for m in card["english"]]`. -/
def is_correct (given : Str) (meanings : List Str) : Bool :=
  (meanings.map normalize).contains (normalize given)

/-- Python's `random.shuffle`, driven by an explicit tape of random draws:
each step picks index `tape[k] % length` of the remaining cards (a
selection shuffle, "Fisher-Yates or equivalent" per the spec; only the
fact that the result is a permutation of the input is used). -/
def shuffle : List Nat → List Card → List Card
  | _, [] => []
  | tape, x :: xs =>
    let j := tape.headD 0 % (x :: xs).length
    (x :: xs).get ⟨j, Nat.mod_lt _ (Nat.succ_pos _)⟩ ::
      shuffle tape.tail ((x :: xs).eraseIdx j)
termination_by _ l => l.length
decreasing_by
  have h : tape.headD 0 % (xs.length + 1) < xs.length + 1 :=
    Nat.mod_lt _ (Nat.succ_pos _)
  simp only [List.length_eraseIdx, List.length_cons, h, if_true]
  omega

/-- The card store, an association list keyed by chapter number: the JSON
object `{"chapter<N>": [...cards...]}` with key `"chapter<N>"` represented
by `N` (the store's keys have that form per the interface contract). -/
abbrev CardStore := List (Nat × List Card)

/-- The accumulation loop of `build_deck` (source lines 40-42):
`for ch in selected: deck.extend(data[ch])`; Python's `data[ch]`
raising `KeyError` on a missing chapter is modelled as `none`. -/
def collect_chapters (data : CardStore) : List Nat → Option (List Card)
  | [] => some []
  | ch :: rest => do
    let cs ← data.lookup ch
    let d ← collect_chapters data rest
    pure (cs ++ d)

/-- `build_deck` (source lines 39-44): concatenate the selected chapters'
cards, then `random.shuffle` the result. -/
def build_deck (tape : List Nat) (data : CardStore) (selected : List Nat) :
    Option (List Card) :=
  (collect_chapters data selected).map (shuffle tape)

/-- `sorted(data.keys(), key=lambda k: int(k.replace("chapter", "")))`
(source line 50): every chapter key, in ascending numeric order. -/
def sorted_chapter_keys (data : CardStore) : List Nat :=
  (data.map Prod.fst).insertionSort (· ≤ ·)

/-- `load_deck` (source lines 46-61), after the JSON file is read:
`chapters` is the CLI chapter-number list (`[]` when absent — Python
truthiness of `cli_args.chapters` treats `None` and `[]` alike);
requested numbers whose `chapter<N>` key is missing are filtered out,
and an empty selection falls back to all chapters in ascending order. -/
def load_deck (tape : List Nat) (data : CardStore) (chapters : List Nat) :
    Option (List Card) :=
  let all_chapters := sorted_chapter_keys data
  if chapters ≠ [] then
    let selected_chapters := chapters.filter fun n => (data.lookup n).isSome
    if selected_chapters = [] then build_deck tape data all_chapters
    else build_deck tape data selected_chapters
  else build_deck tape data all_chapters

/-- The per-session mutable fields of `st.session_state` (source lines
122-130): deck, current index, score, pending answer text, the
checked/judgment/feedback fields of the active card, and the reveal
timer (`timer_start` is absent — `none` — outside the reveal phase). -/
structure QuizState where
  deck : List Card
  idx : Nat
  score : Nat
  answer : Str
  response_checked : Bool
  correct : Option Bool
  feedback : Str
  timer_start : Option ℚ
deriving DecidableEq

/-- The freshly initialised session of source lines 125-130, over a given
(already shuffled) deck. -/
def init_session_state (deck : List Card) : QuizState :=
  { deck := deck, idx := 0, score := 0, answer := [],
    response_checked := false, correct := none, feedback := [],
    timer_start := none }

/-- Session init (source lines 122-130): the deck is `load_deck(...)`
shuffled once more in place (line 124), then the counters are zeroed.
`none` when `load_deck` fails (missing chapter key). -/
def init_session (tape₁ tape₂ : List Nat) (data : CardStore)
    (chapters : List Nat) : Option QuizState :=
  (load_deck tape₁ data chapters).map fun d =>
    init_session_state (shuffle tape₂ d)

/-- The f-string of source line 101: `"✅ Correct! " + ", ".join(english)`. -/
def correct_feedback (card : Card) : Str :=
  "✅ Correct! ".data ++ List.intercalate ", ".data card.english

/-- The f-string of source line 103: `"❌ Wrong. Correct: " + ",".join(english)`. -/
def wrong_feedback (card : Card) : Str :=
  "❌ Wrong. Correct: ".data ++ List.intercalate ",".data card.english

/-- `evaluate_answer` (source lines 89-110), as a state transition at
time `now`: judge the pending answer against the active card, mark the
card checked, start the reveal timer, and update score and feedback.
Python's `deck[idx]` raising `IndexError` out of range is `none`.
(The rendering call and the trailing `time.sleep(1.4)` — both arms of the
`if` at lines 107-110 sleep the same 1.4 seconds — have no effect on the
session state and are not part of the state model.) -/
def evaluate_answer (now : ℚ) (s : QuizState) : Option QuizState :=
  match s.deck[s.idx]? with
  | none => none
  | some card =>
    let ok := is_correct s.answer card.english
    let s₁ := { s with response_checked := true, timer_start := some now,
                       correct := some ok }
    if ok then
      some { s₁ with score := s₁.score + 1, feedback := correct_feedback card }
    else
      some { s₁ with feedback := wrong_feedback card }

/-- `advance_card` (source lines 112-118): move to the next card and reset
every per-card field, deleting the reveal timer. -/
def advance_card (s : QuizState) : QuizState :=
  { s with idx := s.idx + 1, answer := [], response_checked := false,
           feedback := [], correct := none, timer_start := none }

/-- The auto-advance check (source lines 132-139), run at the top of every
script rerun at time `now`: when the active card is checked and a reveal
timer exists, advance once at least 1 second has elapsed; otherwise
`time.sleep(0.1)` and `st.rerun()` — returned as `some (1/10)`, the
requested delay before the next tick — leaving the state untouched.
A `none` second component means the run falls through to the rest of the
script. -/
def auto_advance (now : ℚ) (s : QuizState) : QuizState × Option ℚ :=
  match s.response_checked, s.timer_start with
  | true, some t => if 1 ≤ now - t then (advance_card s, none) else (s, some (1/10))
  | _, _ => (s, none)

/-- The end-quiz test of source line 148: `idx >= len(deck)`. -/
def finished (s : QuizState) : Bool := s.deck.length ≤ s.idx

/-- Python's `/` on numbers: raises `ZeroDivisionError` when the divisor
is zero, modelled as `none`. -/
def py_div (a b : ℚ) : Option ℚ := if b = 0 then none else some (a / b)

/-- The percentage computed by the finish banner (source lines 149-152):
`score / len(deck) * 100`, with no guard on the deck length. -/
def finish_report (s : QuizState) : Option ℚ :=
  (py_div (s.score : ℚ) (s.deck.length : ℚ)).map fun r => r * 100

/-- One script body run after session init, at time `now`, with
`stop_clicked` the value of the Stop button (source lines 132-145): the
auto-advance check runs first; if it ends in `st.rerun()` (second
component `some d`) the rest of the script — including the Stop handler —
never executes in this run, and the button's trigger value is consumed
unprocessed; otherwise the Stop handler (lines 143-145) sets
`idx = len(deck)` when clicked. -/
def script_run (now : ℚ) (stop_clicked : Bool) (s : QuizState) :
    QuizState × Option ℚ :=
  match auto_advance now s with
  | (s₁, some d) => (s₁, some d)
  | (s₁, none) =>
    if stop_clicked then ({ s₁ with idx := s₁.deck.length }, none)
    else (s₁, none)

/-- The session states reachable from a fresh session by the transitions
the state machine performs: Submit (the answer input's `on_change`
callback, enabled only while the input is not disabled, i.e.
`response_checked` is false), the timed Advance of the auto-advance
check, and Stop. -/
inductive Reachable : QuizState → Prop where
  | init (deck : List Card) : Reachable (init_session_state deck)
  | set_answer {s : QuizState} (ans : Str) :
      Reachable s → s.response_checked = false →
      Reachable { s with answer := ans }
  | submit {s s' : QuizState} (now : ℚ) :
      Reachable s → s.response_checked = false →
      evaluate_answer now s = some s' → Reachable s'
  | advance {s : QuizState} {t now : ℚ} :
      Reachable s → s.response_checked = true → s.timer_start = some t →
      1 ≤ now - t → Reachable (advance_card s)
  | stop {s : QuizState} :
      Reachable s → Reachable { s with idx := s.deck.length }

/-- Normalization exactly as the spec words it: lower-case every character
and remove all whitespace characters (spaces, tabs, newlines, and any
other whitespace). Stated only to be compared against the source's
`normalize`. -/
def claimed_normalize (s : Str) : Str :=
  (s.map Char.toLower).filter fun c => !c.isWhitespace

/-- Lower-case every character and remove all space characters (`' '`)
only, keeping every other whitespace character. The amended reading of
the normalization contract. -/
def lower_strip_spaces (s : Str) : Str :=
  (s.map Char.toLower).filter fun c => c ≠ ' '

/-! Concrete data used by witnesses and counterexamples. -/

/-- A one-meaning card. -/
def cardW : Card := ⟨['W'], ["one".data]⟩

/-- A second card, for a two-chapter store. -/
def cardD : Card := ⟨['D'], ["dog".data]⟩

/-- A one-card deck. -/
def deckW : List Card := [cardW]

/-- A two-chapter card store. -/
def storeW : CardStore := [(1, [cardW]), (2, [cardD])]

/-- The fresh session over `deckW` with the correct answer typed in. -/
def quizW : QuizState := { init_session_state deckW with answer := "one".data }

/-- The session over `deckW` right after the correct answer was submitted
at time 0: checked, revealing, score already counted. -/
def revealW : QuizState :=
  { deck := deckW, idx := 0, score := 1, answer := "one".data,
    response_checked := true, correct := some true,
    feedback := correct_feedback cardW, timer_start := some 0 }

/-! Helper lemmas. -/

/-- Removing every occurrence of `c` is filtering by `· ≠ c`. -/
theorem removeAll_eq_filter (c : Char) (s : Str) :
    removeAll c s = s.filter (fun x => x ≠ c) := by
  induction s with
  | nil => rfl
  | cons x xs ih =>
    by_cases h : x = c <;> simp [removeAll, List.filter_cons, h, ih]

/-- Pulling the `j`-th element to the front is a permutation. -/
theorem get_cons_eraseIdx_perm (l : List Card) (j : Nat) (h : j < l.length) :
    List.Perm (l.get ⟨j, h⟩ :: l.eraseIdx j) l := by
  induction l generalizing j with
  | nil => cases h
  | cons x xs ih =>
    cases j with
    | zero => simp
    | succ j =>
      have hj : j < xs.length := Nat.lt_of_succ_lt_succ h
      exact (List.Perm.swap x _ _).trans ((ih j hj).cons x)

/-- `shuffle` permutes its input: no card is added, dropped or
duplicated. -/
theorem shuffle_perm (tape : List Nat) (l : List Card) :
    List.Perm (shuffle tape l) l := by
  induction tape, l using shuffle.induct with
  | case1 tape => simp [shuffle]
  | case2 tape x xs j ih =>
    simp only [shuffle]
    exact (List.Perm.cons _ ih).trans (get_cons_eraseIdx_perm _ _ _)

/-- When every selected chapter is a key of the store, the collection loop
returns exactly the concatenation of the selected chapters' card lists. -/
theorem collect_chapters_eq (data : CardStore) (selected : List Nat)
    (h : ∀ ch ∈ selected, (data.lookup ch).isSome) :
    collect_chapters data selected =
      some (selected.map fun ch => (data.lookup ch).getD []).flatten := by
  induction selected with
  | nil => rfl
  | cons ch rest ih =>
    have hch : (data.lookup ch).isSome := h ch (List.mem_cons_self ch rest)
    obtain ⟨cs, hcs⟩ := Option.isSome_iff_exists.mp hch
    have hrest := ih fun c hc => h c (List.mem_cons_of_mem ch hc)
    simp [collect_chapters, hcs, hrest]

/-- What `evaluate_answer` returns when it succeeds: the active card
exists, the deck, index and answer are untouched, the card is marked
checked with the reveal timer set to `now`, and score and feedback are
updated according to the match. -/
theorem evaluate_answer_spec {now : ℚ} {s s' : QuizState}
    (h : evaluate_answer now s = some s') :
    ∃ hidx : s.idx < s.deck.length,
      s'.deck = s.deck ∧ s'.idx = s.idx ∧ s'.answer = s.answer ∧
      s'.response_checked = true ∧ s'.timer_start = some now ∧
      s'.correct = some (is_correct s.answer s.deck[s.idx].english) ∧
      (if is_correct s.answer s.deck[s.idx].english then
         s'.score = s.score + 1 ∧
         s'.feedback = correct_feedback s.deck[s.idx]
       else
         s'.score = s.score ∧
         s'.feedback = wrong_feedback s.deck[s.idx]) := by
  unfold evaluate_answer at h
  rcases hg : s.deck[s.idx]? with _ | card
  · rw [hg] at h; cases h
  · obtain ⟨hidx, hcard⟩ := List.getElem?_eq_some_iff.mp hg
    rw [hg] at h
    refine ⟨hidx, ?_⟩
    by_cases hok : is_correct s.answer card.english
    · simp only [hok, if_true] at h
      cases h
      simp [hcard, hok]
    · rw [Bool.not_eq_true] at hok
      simp only [hok, Bool.false_eq_true, if_false] at h
      cases h
      simp [hcard, hok]

/-- `shuffle` of an empty list. -/
theorem shuffle_nil (tape : List Nat) : shuffle tape [] = [] := by
  simp [shuffle]

/-- The auto-advance check falls through when the active card is not
checked. -/
theorem auto_advance_of_not_checked {now : ℚ} {s : QuizState}
    (h : s.response_checked = false) : auto_advance now s = (s, none) := by
  unfold auto_advance
  rw [h]

/-- The auto-advance check falls through when no reveal timer exists. -/
theorem auto_advance_of_no_timer {now : ℚ} {s : QuizState}
    (h : s.timer_start = none) : auto_advance now s = (s, none) := by
  unfold auto_advance
  rw [h]
  cases s.response_checked <;> rfl

/-- The auto-advance check advances once the reveal duration elapsed. -/
theorem auto_advance_of_elapsed {now t : ℚ} {s : QuizState}
    (hc : s.response_checked = true) (ht : s.timer_start = some t)
    (he : 1 ≤ now - t) : auto_advance now s = (advance_card s, none) := by
  unfold auto_advance
  rw [hc, ht]
  show (if 1 ≤ now - t then (advance_card s, none) else (s, some (1/10))) =
    (advance_card s, none)
  rw [if_pos he]

/-- The auto-advance check polls while the reveal duration has not
elapsed. -/
theorem auto_advance_of_pending {now t : ℚ} {s : QuizState}
    (hc : s.response_checked = true) (ht : s.timer_start = some t)
    (he : now - t < 1) : auto_advance now s = (s, some (1/10)) := by
  unfold auto_advance
  rw [hc, ht]
  show (if 1 ≤ now - t then (advance_card s, none) else (s, some (1/10))) =
    (s, some (1/10))
  rw [if_neg (not_le.mpr he)]

/-- `evaluate_answer` succeeds whenever the card index is in range. -/
theorem evaluate_answer_isSome (now : ℚ) {s : QuizState}
    (hidx : s.idx < s.deck.length) :
    ∃ s', evaluate_answer now s = some s' := by
  unfold evaluate_answer
  rw [List.getElem?_eq_getElem hidx]
  dsimp only
  split
  · exact ⟨_, rfl⟩
  · exact ⟨_, rfl⟩

/-- The score invariant that holds in every reachable state: the score
never exceeds the deck size, and it exceeds the current index by at most
the one point awarded for the active card during its reveal phase. -/
theorem reachable_score_bound {s : QuizState} (h : Reachable s) :
    s.score ≤ s.deck.length ∧
    s.score ≤ s.idx + (if s.response_checked then 1 else 0) := by
  induction h with
  | init deck => simp [init_session_state]
  | @set_answer s ans _ _ ih =>
    exact ih
  | @submit s s' now _ hchk heval ih =>
    obtain ⟨hidx, hdeck, hidx', _, hchk', _, _, hscore⟩ :=
      evaluate_answer_spec heval
    rw [hchk] at ih
    simp only [Bool.false_eq_true, if_false, Nat.add_zero] at ih
    rw [hchk']
    simp only [if_true]
    split at hscore <;>
      · obtain ⟨hs, _⟩ := hscore
        rw [hs, hdeck, hidx']
        omega
  | @advance s t now _ hchk _ _ ih =>
    rw [hchk] at ih
    simp only [if_true] at ih
    refine ⟨ih.1, ?_⟩
    show s.score ≤ (s.idx + 1) + (if false = true then 1 else 0)
    simp only [Bool.false_eq_true, if_false, Nat.add_zero]
    omega
  | @stop s _ ih =>
    refine ⟨ih.1, ?_⟩
    show s.score ≤ s.deck.length + (if s.response_checked = true then 1 else 0)
    have := ih.1
    split <;> omega

/-! The claims. -/

/-- Claim C1 (confirmed): for every given string and every non-empty list
of accepted meanings, the answer matcher returns true iff the normalized
given string equals the normalized form of at least one accepted meaning —
exact match after normalization, no partial or fuzzy matching. -/
theorem C1_matcher_exact (given : Str) (meanings : List Str)
    (_h : meanings ≠ []) :
    is_correct given meanings = true ↔
      ∃ m ∈ meanings, normalize given = normalize m := by
  constructor
  · intro hc
    have hm : normalize given ∈ meanings.map normalize := List.elem_iff.mp hc
    obtain ⟨m, hmem, he⟩ := List.mem_map.mp hm
    exact ⟨m, hmem, he.symm⟩
  · rintro ⟨m, hmem, he⟩
    apply List.elem_iff.mpr
    rw [he]
    exact List.mem_map_of_mem normalize hmem

/-- Witness for C1 at the spec's own example: `isCorrect("DOG",
["dog","puppy"])`. -/
theorem C1_matcher_exact_witness :
    (["dog".data, "puppy".data] : List Str) ≠ [] ∧
      (is_correct "DOG".data ["dog".data, "puppy".data] = true ↔
        ∃ m ∈ ["dog".data, "puppy".data],
          normalize "DOG".data = normalize m) :=
  ⟨by decide, C1_matcher_exact "DOG".data ["dog".data, "puppy".data] (by decide)⟩

/-- Claim C2 (confirmed): in the Answering phase with an active card,
Submit marks the card checked and starts the reveal timer at the current
time; on a match it adds exactly 1 to the score and emits the "Correct"
feedback listing the accepted meanings, otherwise it keeps the score
unchanged and emits the "Wrong" feedback naming them. -/
theorem C2_submit_transition (s : QuizState) (now : ℚ)
    (_hchk : s.response_checked = false) (hidx : s.idx < s.deck.length) :
    ∃ s', evaluate_answer now s = some s' ∧
      s'.response_checked = true ∧ s'.timer_start = some now ∧
      (is_correct s.answer s.deck[s.idx].english = true →
        s'.score = s.score + 1 ∧
        s'.feedback = correct_feedback s.deck[s.idx]) ∧
      (is_correct s.answer s.deck[s.idx].english = false →
        s'.score = s.score ∧
        s'.feedback = wrong_feedback s.deck[s.idx]) := by
  obtain ⟨s', hs'⟩ := evaluate_answer_isSome now hidx
  obtain ⟨hidx2, _, _, _, hchk', ht', _, hscore⟩ := evaluate_answer_spec hs'
  refine ⟨s', hs', hchk', ht', ?_, ?_⟩
  · intro hok
    rwa [if_pos hok] at hscore
  · intro hok
    rw [hok] at hscore
    simpa using hscore

/-- Witness for C2: submitting the correct answer on a fresh 1-card
session. -/
theorem C2_submit_transition_witness :
    quizW.response_checked = false ∧ quizW.idx < quizW.deck.length ∧
      (∃ s', evaluate_answer 0 quizW = some s' ∧
        s'.response_checked = true ∧ s'.timer_start = some 0 ∧
        (is_correct quizW.answer cardW.english = true →
          s'.score = quizW.score + 1 ∧ s'.feedback = correct_feedback cardW) ∧
        (is_correct quizW.answer cardW.english = false →
          s'.score = quizW.score ∧ s'.feedback = wrong_feedback cardW)) :=
  ⟨rfl, by decide, C2_submit_transition quizW 0 rfl (by decide)⟩

/-- Claim C3 counterexample: on the input `"a\tb"` the source `normalize`
keeps the tab character, while the claim's normalization (all whitespace
removed after lower-casing) strips it. -/
theorem C3_counterexample :
    normalize "a\tb".data ≠ claimed_normalize "a\tb".data := by decide

/-- Claim C3 (amended, proved): `normalize` lower-cases every character
and removes all space characters (`' '`) — and only those; tabs, newlines
and other whitespace are kept. It is total (never fails) by
construction. -/
theorem C3_normalize_lower_strip (s : Str) :
    normalize s = lower_strip_spaces s := by
  simp [normalize, lower_strip_spaces, pyLower, removeAll_eq_filter]

/-- Claim C4 (confirmed): over any store and any selection whose chapter
identifiers are all keys of the store, the built deck has length equal to
the sum of the selected chapters' card counts and is a permutation of the
concatenation of their card lists — the shuffle adds, drops and
duplicates nothing. -/
theorem C4_build_deck_permutes (tape : List Nat) (data : CardStore)
    (selected : List Nat)
    (h : ∀ ch ∈ selected, (data.lookup ch).isSome) :
    ∃ deck, build_deck tape data selected = some deck ∧
      deck.length =
        (selected.map fun ch => ((data.lookup ch).getD []).length).sum ∧
      List.Perm deck (selected.map fun ch => (data.lookup ch).getD []).flatten := by
  refine ⟨shuffle tape (selected.map fun ch => (data.lookup ch).getD []).flatten,
    ?_, ?_, ?_⟩
  · simp [build_deck, collect_chapters_eq data selected h]
  · rw [(shuffle_perm _ _).length_eq, List.length_flatten, List.map_map]
    rfl
  · exact shuffle_perm _ _

/-- Witness for C4 on a two-chapter store with both chapters selected. -/
theorem C4_build_deck_permutes_witness :
    (∀ ch ∈ [2, 1], (storeW.lookup ch).isSome) ∧
      ∃ deck, build_deck [1, 0] storeW [2, 1] = some deck ∧
        deck.length =
          ([2, 1].map fun ch => ((storeW.lookup ch).getD []).length).sum ∧
        List.Perm deck
          ([2, 1].map fun ch => (storeW.lookup ch).getD []).flatten :=
  ⟨by decide, C4_build_deck_permutes [1, 0] storeW [2, 1] (by decide)⟩

/-- Claim C5 (confirmed): the chapter selection of `load_deck` — an empty
request, or one whose numbers all miss the store, falls back to every
chapter in ascending numeric key order; otherwise exactly the matching
chapters are used and unmatched numbers are silently dropped. -/
theorem C5_chapter_selection (tape : List Nat) (data : CardStore)
    (chapters : List Nat) :
    ((chapters.filter fun n => (data.lookup n).isSome) = [] →
       load_deck tape data chapters =
         build_deck tape data (sorted_chapter_keys data)) ∧
    ((chapters.filter fun n => (data.lookup n).isSome) ≠ [] →
       load_deck tape data chapters =
         build_deck tape data
           (chapters.filter fun n => (data.lookup n).isSome)) ∧
    (sorted_chapter_keys data).Sorted (· ≤ ·) ∧
    List.Perm (sorted_chapter_keys data) (data.map Prod.fst) := by
  refine ⟨?_, ?_, ?_, ?_⟩
  · intro hf
    by_cases hc : chapters = []
    · simp [load_deck, hc]
    · simp [load_deck, hc, hf]
  · intro hf
    have hc : chapters ≠ [] := by
      intro hnil
      rw [hnil] at hf
      exact hf rfl
    simp [load_deck, hc, hf]
  · exact List.sorted_insertionSort _ _
  · exact List.perm_insertionSort _ _

/-- Witness for C5: requesting chapters `[2, 5]` of the two-chapter store
keeps chapter 2 and silently drops 5. -/
theorem C5_chapter_selection_witness :
    ([2, 5].filter fun n => (storeW.lookup n).isSome) ≠ [] ∧
      load_deck [] storeW [2, 5] =
        build_deck [] storeW
          ([2, 5].filter fun n => (storeW.lookup n).isSome) :=
  ⟨by decide, (C5_chapter_selection [] storeW [2, 5]).2.1 (by decide)⟩

/-- Claim C6 (code bug, evaluated at the failing input): with an empty
card store nothing fails — no `EmptyDeckError` exists in the source — the
session is initialised over a zero-card deck, it is immediately
"finished", and the finish banner's division by `len(deck) == 0`
raises. -/
theorem C6_empty_store_starts_session :
    init_session [] [] [] [] = some (init_session_state []) ∧
    (init_session_state []).deck.length = 0 ∧
    finished (init_session_state []) = true ∧
    finish_report (init_session_state []) = none := by
  have hload : load_deck [] [] [] = some [] := by
    simp [load_deck, build_deck, collect_chapters, sorted_chapter_keys,
      List.insertionSort, shuffle_nil]
  refine ⟨?_, rfl, rfl, ?_⟩
  · simp [init_session, hload, shuffle_nil]
  · simp [finish_report, py_div, init_session_state]

/-- Claim C7 counterexample: the reachable state `revealW` (a correct
answer submitted on a 1-card deck, still revealing) violates
`score ≤ position`: its score is 1 while its position is still 0. -/
theorem C7_counterexample :
    Reachable revealW ∧ ¬ (revealW.score ≤ revealW.idx) :=
  ⟨Reachable.submit 0
      (Reachable.set_answer "one".data (Reachable.init deckW) rfl)
      rfl (by decide),
    by decide⟩

/-- Claim C7 (amended, proved): in every reachable session state,
`score ≤ position` holds whenever the active card is unchecked, and in
general the score exceeds the position by at most the one point the
active card may have contributed during its reveal phase
(`score ≤ position + 1`); `score` is a natural number, so `0 ≤ score`
holds by construction. -/
theorem C7_score_position_invariant {s : QuizState} (h : Reachable s) :
    s.score ≤ s.idx + (if s.response_checked then 1 else 0) ∧
    (s.response_checked = false → s.score ≤ s.idx) := by
  have hb := (reachable_score_bound h).2
  refine ⟨hb, fun hc => ?_⟩
  rw [hc] at hb
  simpa using hb

/-- Witness for C7 at the freshly initialised 1-card session. -/
theorem C7_score_position_invariant_witness :
    Reachable (init_session_state deckW) ∧
      ((init_session_state deckW).score ≤ (init_session_state deckW).idx +
          (if (init_session_state deckW).response_checked then 1 else 0) ∧
        ((init_session_state deckW).response_checked = false →
          (init_session_state deckW).score ≤ (init_session_state deckW).idx)) :=
  ⟨Reachable.init deckW, C7_score_position_invariant (Reachable.init deckW)⟩

/-- Claim C8 (confirmed): in the reveal phase (card checked, reveal timer
present), a scheduling tick advances — incrementing the position and
resetting the pending answer, the checked flag, the feedback, the
judgment and the timer — exactly when at least 1 second of real time has
elapsed since the reveal started; otherwise it changes nothing and only
requests another tick after a 0.1-second delay. -/
theorem C8_reveal_tick (s : QuizState) (now t : ℚ)
    (hchk : s.response_checked = true) (ht : s.timer_start = some t) :
    (1 ≤ now - t →
      auto_advance now s =
        ({ s with idx := s.idx + 1, answer := [], response_checked := false,
                  feedback := [], correct := none, timer_start := none },
         none)) ∧
    (now - t < 1 → auto_advance now s = (s, some (1/10))) := by
  have h1 : auto_advance now s =
      if 1 ≤ now - t then (advance_card s, none) else (s, some (1/10)) := by
    unfold auto_advance
    rw [hchk, ht]
  constructor
  · intro he
    rw [h1, if_pos he]
    rfl
  · intro he
    rw [h1, if_neg (not_le.mpr he)]

/-- Witness for C8 at the concrete revealing state, 2 seconds after the
reveal started. -/
theorem C8_reveal_tick_witness :
    revealW.response_checked = true ∧ revealW.timer_start = some 0 ∧
      ((1 ≤ (2 : ℚ) - 0 →
        auto_advance 2 revealW =
          ({ revealW with idx := revealW.idx + 1, answer := [],
                          response_checked := false, feedback := [],
                          correct := none, timer_start := none },
           none)) ∧
       ((2 : ℚ) - 0 < 1 → auto_advance 2 revealW = (revealW, some (1/10)))) :=
  ⟨rfl, rfl, C8_reveal_tick revealW 2 0 rfl rfl⟩

/-- Claim C9 counterexample: a Stop click arriving while the reveal of
`revealW` is still pending (0 seconds elapsed, less than the 1-second
reveal) is lost — the run ends in the polling rerun before the Stop
handler executes, the position stays 0 instead of the deck length 1, and
the session is not Finished. -/
theorem C9_counterexample :
    script_run 0 true revealW = (revealW, some (1/10)) ∧
    (script_run 0 true revealW).1.idx ≠
      (script_run 0 true revealW).1.deck.length ∧
    finished (script_run 0 true revealW).1 = false := by
  have h1 : auto_advance 0 revealW = (revealW, some (1/10)) :=
    auto_advance_of_pending rfl rfl (by norm_num)
  have h2 : script_run 0 true revealW = (revealW, some (1/10)) := by
    unfold script_run
    rw [h1]
  refine ⟨h2, ?_, ?_⟩
  · rw [h2]
    decide
  · rw [h2]
    rfl

/-- Claim C9 (amended, proved): a user-triggered Stop forces the position
to the deck length and the machine to Finished — applying a due advance
first — in every script run in which the pending reveal poll does not
fire, that is, unless the state is in the reveal phase with less than 1
second elapsed; in that case the poll's rerun discards the click before
the Stop handler runs. -/
theorem C9_stop_forces_finish (s : QuizState) (now : ℚ)
    (h : s.response_checked = true →
      ∀ t, s.timer_start = some t → 1 ≤ now - t) :
    (script_run now true s).1.idx = (script_run now true s).1.deck.length ∧
    finished (script_run now true s).1 = true ∧
    (script_run now true s).2 = none := by
  have key : ∃ s₁ : QuizState,
      script_run now true s = ({ s₁ with idx := s₁.deck.length }, none) := by
    cases hchk : s.response_checked with
    | false =>
      refine ⟨s, ?_⟩
      unfold script_run
      rw [auto_advance_of_not_checked hchk]
      rfl
    | true =>
      cases ht : s.timer_start with
      | none =>
        refine ⟨s, ?_⟩
        unfold script_run
        rw [auto_advance_of_no_timer ht]
        rfl
      | some t =>
        refine ⟨advance_card s, ?_⟩
        unfold script_run
        rw [auto_advance_of_elapsed hchk ht (h hchk t ht)]
        rfl
  obtain ⟨s₁, hrun⟩ := key
  rw [hrun]
  exact ⟨rfl, by simp [finished], rfl⟩

/-- Witness for C9 at the freshly initialised (unchecked) 1-card
session. -/
theorem C9_stop_forces_finish_witness :
    ((init_session_state deckW).response_checked = true →
        ∀ t, (init_session_state deckW).timer_start = some t →
          1 ≤ (0 : ℚ) - t) ∧
      ((script_run 0 true (init_session_state deckW)).1.idx =
          (script_run 0 true (init_session_state deckW)).1.deck.length ∧
        finished (script_run 0 true (init_session_state deckW)).1 = true ∧
        (script_run 0 true (init_session_state deckW)).2 = none) := by
  have h0 : (init_session_state deckW).response_checked = true →
      ∀ t, (init_session_state deckW).timer_start = some t →
        1 ≤ (0 : ℚ) - t := by
    intro hc
    exact absurd hc (by decide)
  exact ⟨h0, C9_stop_forces_finish (init_session_state deckW) 0 h0⟩

/-- Claim C10 (confirmed): the finish banner computes
`score/len(deck)*100` with no guard on the deck length — it yields a
value exactly when the deck is non-empty, and with an empty deck the
division raises (`none`) instead of producing a report. -/
theorem C10_report_unguarded_division (s : QuizState) :
    (finish_report s = none ↔ s.deck.length = 0) ∧
    (s.deck.length ≠ 0 →
      finish_report s = some ((s.score : ℚ) / (s.deck.length : ℚ) * 100)) := by
  unfold finish_report py_div
  by_cases h : (s.deck.length : ℚ) = 0
  · have h0 : s.deck.length = 0 := by exact_mod_cast h
    simp [h, h0]
  · have h0 : s.deck.length ≠ 0 := by
      intro hh
      exact h (by exact_mod_cast hh)
    simp [h, h0]

/-- Witness for C10 at the finished 1-card session with score 1: the
report is 100 percent. -/
theorem C10_report_unguarded_division_witness :
    revealW.deck.length ≠ 0 ∧
      finish_report revealW =
        some ((revealW.score : ℚ) / (revealW.deck.length : ℚ) * 100) ∧
      (finish_report revealW = none ↔ revealW.deck.length = 0) :=
  ⟨by decide, (C10_report_unguarded_division revealW).2 (by decide),
    (C10_report_unguarded_division revealW).1⟩

end CharQuiz
